import Mathlib

set_option autoImplicit false

/-!
Shallow embedding of `src/pyopt/option.py` (the `pyopt` option-container
library): Python values, the per-instance private store `self.__opts`,
the field descriptor class `Option`, the container base `OptionsBase`,
the sealed variant `Options`, and the declaration helpers `option` and
`readonly_option`.  Theorems at the end settle the specification claims.
-/

namespace PyOpt

/-- Python runtime values stored in an option container.  `Val.none` embeds
the Python `None` singleton, which the source uses both as a storable value
and as the "no default" / "no filter" sentinel. -/
inductive Val where
  | none
  | bool (b : Bool)
  | int (n : Int)
  | str (s : String)
deriving DecidableEq, Repr

/-- `copy.deepcopy` restricted to `Val`.  In a pure value semantics a deep
copy denotes the same value (the aliasing it prevents in Python is not
observable on immutable mathematical values), so it is the identity. -/
def deepcopy (v : Val) : Val := v

@[simp] theorem deepcopy_eq (v : Val) : deepcopy v = v := rfl

/-- The Python exceptions raised by the embedded code (`DuplicateOptionName`,
`InterruptedSetOption`, `UnsetOption`, `ValueError`, `TypeError`,
`AttributeError`). -/
inductive Err where
  | duplicateOptionName (name : String)
  | interruptedSetOption
  | unsetOption (name : String)
  | valueError (msg : String)
  | typeError (msg : String)
  | attributeError
deriving DecidableEq, Repr

/-- The private store `self.__opts`: a Python dict modelled as an
insertion-ordered association list.  Python dicts hold each key at most once;
the operations below preserve that invariant, stated as `Dict.NodupKeys`. -/
abbrev Dict := List (String × Val)

namespace Dict

/-- Dict lookup `d[k]`: the first entry carrying the key. -/
def lookup : Dict → String → Option Val
  | [], _ => Option.none
  | (k0, v0) :: rest, k => if k0 = k then Option.some v0 else lookup rest k

/-- Key membership `k in d`. -/
def hasKey (d : Dict) (k : String) : Bool := (lookup d k).isSome

/-- Dict write `d[k] = v`: replace in place when the key is present, else
append a new entry (Python dicts keep insertion order). -/
def set : Dict → String → Val → Dict
  | [], k, v => [(k, v)]
  | (k0, v0) :: rest, k, v =>
      if k0 = k then (k, v) :: rest else (k0, v0) :: set rest k v

/-- Dict removal `del d[k]`: drop the entry carrying the key. -/
def del : Dict → String → Dict
  | [], _ => []
  | (k0, v0) :: rest, k => if k0 = k then rest else (k0, v0) :: del rest k

/-- `d.update(other)`: right-biased merge, as Python `dict.update`. -/
def update (d other : Dict) : Dict :=
  other.foldl (fun acc kv => set acc kv.1 kv.2) d

/-- The keys of a store, in order. -/
def keys (d : Dict) : List String := d.map Prod.fst

/-- Python dicts never repeat a key. -/
def NodupKeys (d : Dict) : Prop := d.keys.Nodup

instance (d : Dict) : Decidable (NodupKeys d) := by
  unfold NodupKeys; infer_instance

/-- Python dict equality `d1 == d2`: same key set and the same value at every
key; insertion order is ignored. -/
def eqv (a b : Dict) : Bool :=
  (a.map Prod.fst ++ b.map Prod.fst).all (fun k => decide (lookup a k = lookup b k))

/-- Body of `OptionsBase.diff` (source lines 316..322): the entries of `a`
whose key is absent from `b`, then the entries of `b` whose key is absent
from `a`.  The source iterates Python key sets, whose order is unspecified;
dict equality ignores order, so this fixed order is a sound representative. -/
def symmDiff (a b : Dict) : Dict :=
  a.filter (fun kv => !(hasKey b kv.1)) ++ b.filter (fun kv => !(hasKey a kv.1))

@[simp] theorem lookup_nil (k : String) : lookup [] k = Option.none := rfl

theorem lookup_set_self (d : Dict) (k : String) (v : Val) :
    lookup (set d k v) k = Option.some v := by
  induction d with
  | nil => simp [set, lookup]
  | cons hd tl ih =>
      by_cases h : hd.1 = k
      · simp [set, h, lookup]
      · simp [set, h, lookup, ih]

theorem lookup_set_ne (d : Dict) (k k' : String) (v : Val) (h : k ≠ k') :
    lookup (set d k v) k' = lookup d k' := by
  induction d with
  | nil => simp [set, lookup, h]
  | cons hd tl ih =>
      by_cases h0 : hd.1 = k
      · simp [set, h0, lookup, h]
      · simp [set, h0, lookup, ih]

theorem lookup_eq_none_of_not_mem_keys (d : Dict) (k : String)
    (h : k ∉ keys d) : lookup d k = Option.none := by
  induction d with
  | nil => rfl
  | cons hd tl ih =>
      simp only [keys, List.map_cons, List.mem_cons] at h
      push_neg at h
      have h1 : ¬ hd.1 = k := fun he => h.1 he.symm
      simp [lookup, h1, ih (by simpa [keys] using h.2)]

theorem mem_keys_set (d : Dict) (k k' : String) (v : Val) :
    k' ∈ keys (set d k v) ↔ k' ∈ keys d ∨ k' = k := by
  induction d with
  | nil => simp [set, keys]
  | cons hd tl ih =>
      by_cases h : hd.1 = k
      · subst h
        simp [set, keys]
        tauto
      · simp [set, h, keys] at ih ⊢
        tauto

theorem nodupKeys_set (d : Dict) (k : String) (v : Val)
    (h : NodupKeys d) : NodupKeys (set d k v) := by
  induction d with
  | nil => simp [NodupKeys, set, keys]
  | cons hd tl ih =>
      obtain ⟨k0, v0⟩ := hd
      simp only [NodupKeys, keys, List.map_cons, List.nodup_cons] at h
      by_cases h0 : k0 = k
      · subst h0
        have hs : set ((k0, v0) :: tl) k0 v = (k0, v) :: tl := by simp [set]
        rw [hs]
        simp only [NodupKeys, keys, List.map_cons, List.nodup_cons]
        exact ⟨h.1, h.2⟩
      · have htl : NodupKeys (set tl k v) := ih h.2
        have hs : set ((k0, v0) :: tl) k v = (k0, v0) :: set tl k v := by
          simp [set, h0]
        rw [hs]
        simp only [NodupKeys, keys, List.map_cons, List.nodup_cons]
        refine ⟨?_, htl⟩
        intro hmem
        rcases (mem_keys_set tl k k0 v).1 (by simpa [keys] using hmem) with h1 | h1
        · exact h.1 h1
        · exact h0 h1

theorem lookup_del_self (d : Dict) (k : String) (h : NodupKeys d) :
    lookup (del d k) k = Option.none := by
  induction d with
  | nil => rfl
  | cons hd tl ih =>
      simp only [NodupKeys, keys, List.map_cons, List.nodup_cons] at h
      by_cases h0 : hd.1 = k
      · subst h0
        simp only [del, if_pos rfl]
        exact lookup_eq_none_of_not_mem_keys tl hd.1 (by simpa [keys] using h.1)
      · simp [del, h0, lookup, ih h.2]

theorem lookup_append (d1 d2 : Dict) (k : String) :
    lookup (d1 ++ d2) k =
      match lookup d1 k with
      | Option.some v => Option.some v
      | Option.none => lookup d2 k := by
  induction d1 with
  | nil => simp [lookup]
  | cons hd tl ih =>
      by_cases h : hd.1 = k
      · simp [lookup, h]
      · simp [lookup, h, ih]

theorem lookup_filterKey (p : String → Bool) (d : Dict) (k : String) :
    lookup (d.filter (fun kv => p kv.1)) k =
      if p k then lookup d k else Option.none := by
  induction d with
  | nil => simp [lookup]
  | cons hd tl ih =>
      by_cases hk : hd.1 = k
      · subst hk
        by_cases hp : p hd.1
        · simp [List.filter_cons, hp, lookup, ih]
        · simp [List.filter_cons, hp, lookup, ih]
      · by_cases hp : p hd.1
        · simp [List.filter_cons, hp, lookup, hk, ih]
        · simp [List.filter_cons, hp, lookup, hk, ih]

theorem hasKey_of_mem (d : Dict) (kv : String × Val) (h : kv ∈ d) :
    hasKey d kv.1 = true := by
  induction d with
  | nil => simp at h
  | cons hd tl ih =>
      rcases List.mem_cons.1 h with h0 | h0
      · subst h0
        simp [hasKey, lookup]
      · by_cases hk : hd.1 = kv.1
        · simp [hasKey, lookup, hk]
        · simpa [hasKey, lookup, hk] using ih h0

theorem lookup_eq_none_of_hasKey_false (d : Dict) (k : String)
    (h : hasKey d k = false) : lookup d k = Option.none := by
  unfold hasKey at h
  cases h0 : lookup d k with
  | none => rfl
  | some v => rw [h0] at h; simp at h

/-- Pointwise characterisation of the symmetric difference, as the spec
states it: a key maps to the value of whichever side has it, and only when
exactly one side has it. -/
theorem lookup_symmDiff (a b : Dict) (k : String) :
    lookup (symmDiff a b) k =
      if hasKey a k ∧ ¬ hasKey b k then lookup a k
      else if hasKey b k ∧ ¬ hasKey a k then lookup b k
      else Option.none := by
  have h1 : lookup (a.filter (fun kv => !(hasKey b kv.1))) k =
      if !(hasKey b k) then lookup a k else Option.none :=
    lookup_filterKey (fun x => !(hasKey b x)) a k
  have h2 : lookup (b.filter (fun kv => !(hasKey a kv.1))) k =
      if !(hasKey a k) then lookup b k else Option.none :=
    lookup_filterKey (fun x => !(hasKey a x)) b k
  unfold symmDiff
  rw [lookup_append, h1, h2]
  by_cases ha : hasKey a k <;> by_cases hb : hasKey b k <;>
    cases hla : Dict.lookup a k <;>
      simp_all [Dict.hasKey, lookup_eq_none_of_hasKey_false]

theorem eqv_of_lookup_eq (a b : Dict)
    (h : ∀ k, lookup a k = lookup b k) : eqv a b = true := by
  unfold eqv
  rw [List.all_eq_true]
  intro k _
  exact decide_eq_true (h k)

theorem symmDiff_self (a : Dict) : symmDiff a a = [] := by
  unfold symmDiff
  have h : a.filter (fun kv => !(hasKey a kv.1)) = [] := by
    rw [List.filter_eq_nil_iff]
    intro kv hkv
    simp [hasKey_of_mem a kv hkv]
  simp [h]

end Dict

/-- A Python class, identified by its name together with the names of its
proper ancestor classes (its method resolution order with the own name
removed). -/
structure PyClass where
  name : String
  ancestors : List String
deriving DecidableEq, Repr

/-- An option container instance: its concrete class and its private store
`self.__opts`. -/
structure Inst where
  cls : PyClass
  opts : Dict
deriving DecidableEq, Repr

/-- `isinstance(x, target)`: the target class is the concrete class of `x`
or one of its ancestors. -/
def isinstance (x : Inst) (target : PyClass) : Prop :=
  x.cls.name = target.name ∨ target.name ∈ x.cls.ancestors

instance (x : Inst) (target : PyClass) : Decidable (isinstance x target) := by
  unfold isinstance; infer_instance

/-- Result of calling a Python set filter: a returned value, a raised
`InterruptedSetOption`, or any other raised exception (for example the
`TypeError` raised by the filter in `src/test/test.py`). -/
inductive FilterOut where
  | ret (v : Val)
  | raiseInterrupted
  | raiseErr (e : Err)

/-- The `set_filter` argument accepted by `Option.__init__` (source lines
51..73): `None`, `True`, `False` (the read-only marker), or a callable of
arity 0, 1, or at least 2.  `staticmethod` and `classmethod` arguments are
unwrapped to their functions by line 73 and are covered by the arity cases;
any other non-callable value is rejected at declaration time (line 70) and
therefore never reaches a container. -/
inductive SetFilter where
  | none
  | boolTrue
  | boolFalse
  | func0 (f : Unit → FilterOut)
  | func1 (f : Val → FilterOut)
  | func2 (f : Inst → Val → FilterOut)

/-- What `Option.__init__` turns `set_filter` into (lines 75..91): a wrapped
callable taking the instance and the value, the pre-built `ValueError` object
for the read-only marker `False`, or `None` for pass-through (`None` and
`True` both land in the final `else`). -/
inductive WrapFilter where
  | callable (f : Inst → Val → FilterOut)
  | exn (e : Err)
  | nothing

/-- Lines 75..91 of the source. -/
def mkWrapFilter : SetFilter → WrapFilter
  | SetFilter.none => WrapFilter.nothing
  | SetFilter.boolTrue => WrapFilter.nothing
  | SetFilter.boolFalse => WrapFilter.exn (Err.valueError "Read-only options.")
  | SetFilter.func0 f => WrapFilter.callable (fun _ _ => f ())
  | SetFilter.func1 f => WrapFilter.callable (fun _ v => f v)
  | SetFilter.func2 f => WrapFilter.callable (fun s v => f s v)

/-- The field descriptor class `Option` of the source, renamed here because
`Option` is a core Lean type.  `default_value = Val.none` embeds the Python
declaration `default_value=None`, the "no default" sentinel. -/
structure OptionDesc where
  name : String
  set_filter : SetFilter
  default_value : Val
  doc : String

namespace OptionsBase

/-- `OptionsBase.fget` (source lines 224..227): raise `UnsetOption` when the
storage key is absent, else return the stored value. -/
def fget (self : Inst) (name : String) : Except Err Val :=
  match Dict.lookup self.opts name with
  | Option.some v => Except.ok v
  | Option.none => Except.error (Err.unsetOption name)

/-- `OptionsBase.fset` (lines 229..230): unconditional store write. -/
def fset (self : Inst) (name : String) (value : Val) : Inst :=
  { self with opts := Dict.set self.opts name value }

/-- `OptionsBase.fdelete` (lines 232..235): raise `UnsetOption` when the
storage key is absent, else remove it.  The pair returns the outcome together
with the resulting instance state. -/
def fdelete (self : Inst) (name : String) : Except Err Unit × Inst :=
  if Dict.hasKey self.opts name then
    (Except.ok (), { self with opts := Dict.del self.opts name })
  else (Except.error (Err.unsetOption name), self)

end OptionsBase

/-- `_wrap_setter` (source lines 93..101).  A raised `InterruptedSetOption`
from the filter makes the call a silent no-op; any other exception raised by
the filter propagates; the read-only marker raises its stored `ValueError`
before anything is written; otherwise the (possibly transformed) value is
written through `OptionsBase.fset` - called on the base class explicitly
(line 101), bypassing any override on the concrete class. -/
def wrapSetter (opt : OptionDesc) (self : Inst) (value : Val) :
    Except Err Unit × Inst :=
  match mkWrapFilter opt.set_filter with
  | WrapFilter.callable f =>
      match f self value with
      | FilterOut.ret v => (Except.ok (), OptionsBase.fset self opt.name v)
      | FilterOut.raiseInterrupted => (Except.ok (), self)
      | FilterOut.raiseErr e => (Except.error e, self)
  | WrapFilter.exn e => (Except.error e, self)
  | WrapFilter.nothing => (Except.ok (), OptionsBase.fset self opt.name value)

/-- `_wrap_getter` (lines 103..110).  `OptionsBase.fget` can only raise
`UnsetOption`, which the source catches: a non-`None` default is then
materialized through `_wrap_setter` - hence through the set filter - and the
slot is re-read; with a `None` default the `UnsetOption` propagates. -/
def wrapGetter (opt : OptionDesc) (self : Inst) : Except Err Val × Inst :=
  match OptionsBase.fget self opt.name with
  | Except.ok v => (Except.ok v, self)
  | Except.error e =>
      if opt.default_value ≠ Val.none then
        match wrapSetter opt self (deepcopy opt.default_value) with
        | (Except.ok _, self1) => (OptionsBase.fget self1 opt.name, self1)
        | (Except.error e1, self1) => (Except.error e1, self1)
      else (Except.error e, self)

/-- `_wrap_deleter` (lines 112..115): re-materialize a non-`None` default
through `_wrap_setter`, then remove the storage key via `OptionsBase.fdelete`
(again called on the base class explicitly). -/
def wrapDeleter (opt : OptionDesc) (self : Inst) : Except Err Unit × Inst :=
  if opt.default_value ≠ Val.none then
    match wrapSetter opt self (deepcopy opt.default_value) with
    | (Except.ok _, self1) => OptionsBase.fdelete self1 opt.name
    | (Except.error e1, self1) => (Except.error e1, self1)
  else OptionsBase.fdelete self opt.name

/-- A container type: its concrete class together with the result of the
reflection method `options()` (lines 342..354) - the declared
(attribute, descriptor) pairs, in `dir()` order. -/
structure ContainerType where
  cls : PyClass
  fields : List (String × OptionDesc)

/-- The declared storage keys of a container type, in `options()` order. -/
def ContainerType.optNames (ty : ContainerType) : List String :=
  ty.fields.map (fun f => f.2.name)

namespace OptionsBase

/-- The construction loop of `OptionsBase.__init__` (lines 161..169): for
each declared option, a non-`None` default is first materialized through the
attribute setter (`setattr` routes through `_wrap_setter`), and then the
storage key is checked against the keys already seen. -/
def initLoop : List (String × OptionDesc) → List String → Inst →
    Except Err Inst
  | [], _, self => Except.ok self
  | (_, opt) :: rest, seen, self =>
      let step : Except Err Unit × Inst :=
        if opt.default_value ≠ Val.none then
          wrapSetter opt self (deepcopy opt.default_value)
        else (Except.ok (), self)
      match step with
      | (Except.error e, _) => Except.error e
      | (Except.ok _, self1) =>
          if opt.name ∈ seen then
            Except.error (Err.duplicateOptionName opt.name)
          else initLoop rest (opt.name :: seen) self1

/-- `OptionsBase.from_options` (lines 324..336): type check, then the
right-biased store update `self.__opts.update(...)`.  Every `Inst` of this
model is an `OptionsBase`, so the first `isinstance` conjunct of line 334
always holds and only the second is modelled. -/
def from_options (self source : Inst) : Except Err Inst :=
  if ¬ isinstance self source.cls then
    Except.error (Err.typeError "cannot get options")
  else Except.ok { self with opts := Dict.update self.opts source.opts }

/-- `OptionsBase.__init__` (lines 149..169): start from an empty store, copy
from the optional source container via `from_options`, then run the default
materialization and duplicate detection loop over the declared options. -/
def init (ty : ContainerType) (source : Option Inst) : Except Err Inst :=
  let self0 : Inst := { cls := ty.cls, opts := [] }
  match source with
  | Option.none => initLoop ty.fields [] self0
  | Option.some src =>
      match from_options self0 src with
      | Except.error e => Except.error e
      | Except.ok self1 => initLoop ty.fields [] self1

/-- `OptionsBase.is_set` (lines 276..294), string form: membership of the
storage key in the store (the `Option` overload first projects `name.name`,
reaching the same test). -/
def is_set (self : Inst) (name : String) : Bool := Dict.hasKey self.opts name

/-- `OptionsBase.clear` (lines 296..298). -/
def clear (self : Inst) : Inst := { self with opts := [] }

/-- `OptionsBase.build` (lines 338..340): a fresh plain dict copy of the
store, keyed by storage keys. -/
def build (self : Inst) : Dict := self.opts

/-- `OptionsBase.diff` (lines 300..322): reject an `other` that is not an
instance of the concrete type of `self`, else return the symmetric
difference of the two stores. -/
def diff (self other : Inst) : Except Err Dict :=
  if ¬ isinstance other self.cls then
    Except.error (Err.typeError "cannot compare")
  else Except.ok (Dict.symmDiff self.opts other.opts)

end OptionsBase

namespace Options

/-- The sealed variant `Options.fget` (source lines 373..374): an
unconditional `AttributeError`, whatever the arguments. -/
def fget (_self : Inst) (_name : String) : Except Err Val :=
  Except.error Err.attributeError

/-- `Options.fset` (lines 376..377): unconditional `AttributeError`. -/
def fset (_self : Inst) (_name : String) (_value : Val) : Except Err Inst :=
  Except.error Err.attributeError

/-- `Options.fdelete` (lines 379..380): unconditional `AttributeError`. -/
def fdelete (_self : Inst) (_name : String) : Except Err Unit :=
  Except.error Err.attributeError

end Options

/-- The factory `option` (lines 383..402).  The branch converting an
`Option` first argument to its name is outside this model, which always
receives a string name. -/
def option (name : String) (set_filter : SetFilter) (default_value : Val)
    (doc : String) : OptionDesc :=
  { name := name, set_filter := set_filter, default_value := default_value,
    doc := doc }

/-- The factory `readonly_option` (lines 405..415):
`option(name, False, default_value, doc)`. -/
def readonly_option (name : String) (default_value : Val) (doc : String) :
    OptionDesc :=
  option name SetFilter.boolFalse default_value doc

/-- Whether a construction outcome is a usable instance rather than a raised
exception. -/
def succeeds : Except Err Inst → Bool
  | Except.ok _ => true
  | Except.error _ => false

/-- The first key of the list that repeats a key seen earlier, scanning in
order with the already-seen keys accumulating - exactly the scan order of the
construction loop. -/
def firstDup : List String → List String → Option String
  | _, [] => Option.none
  | seen, k :: rest =>
      if k ∈ seen then Option.some k else firstDup (k :: seen) rest

theorem wrapSetter_none (opt : OptionDesc) (self : Inst) (v : Val)
    (h : opt.set_filter = SetFilter.none) :
    wrapSetter opt self v = (Except.ok (), OptionsBase.fset self opt.name v) := by
  simp [wrapSetter, h, mkWrapFilter]

theorem wrapSetter_boolFalse (opt : OptionDesc) (self : Inst) (v : Val)
    (h : opt.set_filter = SetFilter.boolFalse) :
    wrapSetter opt self v =
      (Except.error (Err.valueError "Read-only options."), self) := by
  simp [wrapSetter, h, mkWrapFilter]

theorem initLoop_cons (attr : String) (opt : OptionDesc)
    (rest : List (String × OptionDesc)) (seen : List String) (self : Inst) :
    OptionsBase.initLoop ((attr, opt) :: rest) seen self =
      match (if opt.default_value ≠ Val.none then
               wrapSetter opt self (deepcopy opt.default_value)
             else (Except.ok (), self)) with
      | (Except.error e, _) => Except.error e
      | (Except.ok _, self1) =>
          if opt.name ∈ seen then
            Except.error (Err.duplicateOptionName opt.name)
          else OptionsBase.initLoop rest (opt.name :: seen) self1 := rfl

theorem initLoop_cons_no_default (attr : String) (opt : OptionDesc)
    (rest : List (String × OptionDesc)) (seen : List String) (self : Inst)
    (h : opt.default_value = Val.none) :
    OptionsBase.initLoop ((attr, opt) :: rest) seen self =
      if opt.name ∈ seen then Except.error (Err.duplicateOptionName opt.name)
      else OptionsBase.initLoop rest (opt.name :: seen) self := by
  rw [initLoop_cons]
  simp [h]

theorem initLoop_cons_pass_default (attr : String) (opt : OptionDesc)
    (rest : List (String × OptionDesc)) (seen : List String) (self : Inst)
    (hf : opt.set_filter = SetFilter.none) (h : opt.default_value ≠ Val.none) :
    OptionsBase.initLoop ((attr, opt) :: rest) seen self =
      if opt.name ∈ seen then Except.error (Err.duplicateOptionName opt.name)
      else OptionsBase.initLoop rest (opt.name :: seen)
        (OptionsBase.fset self opt.name opt.default_value) := by
  rw [initLoop_cons]
  simp [h, wrapSetter_none opt self _ hf, deepcopy]

theorem initLoop_cons_ro_default (attr : String) (opt : OptionDesc)
    (rest : List (String × OptionDesc)) (seen : List String) (self : Inst)
    (hf : opt.set_filter = SetFilter.boolFalse)
    (h : opt.default_value ≠ Val.none) :
    OptionsBase.initLoop ((attr, opt) :: rest) seen self =
      Except.error (Err.valueError "Read-only options.") := by
  rw [initLoop_cons]
  simp [h, wrapSetter_boolFalse opt self _ hf]

/-- A successful run of the construction loop forces the scanned storage keys
to be pairwise distinct and disjoint from the keys already seen. -/
theorem initLoop_ok_nodup (fields : List (String × OptionDesc)) :
    ∀ (seen : List String) (self inst : Inst),
      OptionsBase.initLoop fields seen self = Except.ok inst →
      (fields.map (fun f => f.2.name)).Nodup ∧
      (∀ k ∈ fields.map (fun f => f.2.name), k ∉ seen) := by
  induction fields with
  | nil => intro seen self inst _; simp
  | cons hd tl ih =>
      intro seen self inst h
      obtain ⟨attr0, opt0⟩ := hd
      rw [initLoop_cons] at h
      rcases hstep : (if opt0.default_value ≠ Val.none then
          wrapSetter opt0 self (deepcopy opt0.default_value)
        else (Except.ok (), self)) with ⟨r, self1⟩
      rw [hstep] at h
      cases r with
      | error e => simp at h
      | ok u =>
          replace h : (if opt0.name ∈ seen then
              Except.error (Err.duplicateOptionName opt0.name)
            else OptionsBase.initLoop tl (opt0.name :: seen) self1) =
              Except.ok inst := h
          by_cases hmem : opt0.name ∈ seen
          · simp [hmem] at h
          · rw [if_neg hmem] at h
            obtain ⟨hnd, hdisj⟩ := ih (opt0.name :: seen) self1 inst h
            refine ⟨?_, ?_⟩
            · simp only [List.map_cons, List.nodup_cons]
              exact ⟨fun hin => (hdisj opt0.name hin) (List.mem_cons_self _ _), hnd⟩
            · intro k hk
              rw [List.map_cons] at hk
              rcases List.mem_cons.1 hk with h1 | h1
              · subst h1; exact hmem
              · intro hks
                exact (hdisj k h1) (List.mem_cons_of_mem _ hks)

/-- With pass-through filters, the construction loop raises the duplicate
error at exactly the first repeated storage key. -/
theorem initLoop_firstDup (fields : List (String × OptionDesc)) :
    ∀ (seen : List String) (self : Inst) (k : String),
      (∀ f ∈ fields, f.2.set_filter = SetFilter.none) →
      firstDup seen (fields.map (fun f => f.2.name)) = Option.some k →
      OptionsBase.initLoop fields seen self =
        Except.error (Err.duplicateOptionName k) := by
  induction fields with
  | nil => intro seen self k _ h; simp [firstDup] at h
  | cons hd tl ih =>
      intro seen self k hben h
      obtain ⟨attr0, opt0⟩ := hd
      have hf : opt0.set_filter = SetFilter.none :=
        hben (attr0, opt0) (List.mem_cons_self _ _)
      simp only [List.map_cons, firstDup] at h
      by_cases hmem : opt0.name ∈ seen
      · rw [if_pos hmem] at h
        have hk : k = opt0.name := by
          have := h
          simp at this
          exact this.symm
        subst hk
        by_cases hdv : opt0.default_value = Val.none
        · rw [initLoop_cons_no_default attr0 opt0 tl seen self hdv, if_pos hmem]
        · rw [initLoop_cons_pass_default attr0 opt0 tl seen self hf hdv,
            if_pos hmem]
      · rw [if_neg hmem] at h
        have htl : ∀ f ∈ tl, f.2.set_filter = SetFilter.none :=
          fun f hfm => hben f (List.mem_cons_of_mem _ hfm)
        by_cases hdv : opt0.default_value = Val.none
        · rw [initLoop_cons_no_default attr0 opt0 tl seen self hdv, if_neg hmem]
          exact ih (opt0.name :: seen) self k htl h
        · rw [initLoop_cons_pass_default attr0 opt0 tl seen self hf hdv,
            if_neg hmem]
          exact ih (opt0.name :: seen) _ k htl h

/-- With benign filters (pass-through or read-only) and pairwise distinct
storage keys disjoint from the seen set, the loop never raises the duplicate
error. -/
theorem initLoop_no_dup_err (fields : List (String × OptionDesc)) :
    ∀ (seen : List String) (self : Inst) (k : String),
      (∀ f ∈ fields, f.2.set_filter = SetFilter.none ∨
        f.2.set_filter = SetFilter.boolFalse) →
      (fields.map (fun f => f.2.name)).Nodup →
      (∀ k0 ∈ fields.map (fun f => f.2.name), k0 ∉ seen) →
      OptionsBase.initLoop fields seen self ≠
        Except.error (Err.duplicateOptionName k) := by
  induction fields with
  | nil => intro seen self k _ _ _ h; simp [OptionsBase.initLoop] at h
  | cons hd tl ih =>
      intro seen self k hben hnd hdisj h
      obtain ⟨attr0, opt0⟩ := hd
      have hmem : opt0.name ∉ seen := by
        exact hdisj opt0.name (by simp)
      simp only [List.map_cons, List.nodup_cons] at hnd
      have htl_ben : ∀ f ∈ tl, f.2.set_filter = SetFilter.none ∨
          f.2.set_filter = SetFilter.boolFalse :=
        fun f hfm => hben f (List.mem_cons_of_mem _ hfm)
      have htl_disj : ∀ k0 ∈ tl.map (fun f => f.2.name), k0 ∉ opt0.name :: seen := by
        intro k0 hk0
        intro hk0s
        rcases List.mem_cons.1 hk0s with h1 | h1
        · subst h1; exact hnd.1 hk0
        · exact (hdisj k0 (by simp [hk0])) h1
      rcases hben (attr0, opt0) (List.mem_cons_self _ _) with hf | hf
      · by_cases hdv : opt0.default_value = Val.none
        · rw [initLoop_cons_no_default attr0 opt0 tl seen self hdv,
            if_neg hmem] at h
          exact ih (opt0.name :: seen) self k htl_ben hnd.2 htl_disj h
        · rw [initLoop_cons_pass_default attr0 opt0 tl seen self hf hdv,
            if_neg hmem] at h
          exact ih (opt0.name :: seen) _ k htl_ben hnd.2 htl_disj h
      · by_cases hdv : opt0.default_value = Val.none
        · rw [initLoop_cons_no_default attr0 opt0 tl seen self hdv,
            if_neg hmem] at h
          exact ih (opt0.name :: seen) self k htl_ben hnd.2 htl_disj h
        · rw [initLoop_cons_ro_default attr0 opt0 tl seen self hf hdv] at h
          simp at h

/-- A declared read-only field with a non-`None` default makes the
construction loop fail, whatever the other fields do. -/
theorem initLoop_ro_fails (fields : List (String × OptionDesc)) :
    ∀ (seen : List String) (self : Inst) (attr : String) (opt : OptionDesc),
      (attr, opt) ∈ fields → opt.set_filter = SetFilter.boolFalse →
      opt.default_value ≠ Val.none →
      succeeds (OptionsBase.initLoop fields seen self) = false := by
  induction fields with
  | nil => intro seen self attr opt h _ _; simp at h
  | cons hd tl ih =>
      intro seen self attr opt hm hf hdv
      obtain ⟨attr0, opt0⟩ := hd
      rcases List.mem_cons.1 hm with h1 | h1
      · have he : opt0 = opt := congrArg Prod.snd h1.symm
        rw [initLoop_cons_ro_default attr0 opt0 tl seen self
          (by rw [he]; exact hf) (by rw [he]; exact hdv)]
        rfl
      · rcases hstep : (if opt0.default_value ≠ Val.none then
            wrapSetter opt0 self (deepcopy opt0.default_value)
          else (Except.ok (), self)) with ⟨r, self1⟩
        rw [initLoop_cons, hstep]
        cases r with
        | error e => rfl
        | ok u =>
            show succeeds (if opt0.name ∈ seen then
                Except.error (Err.duplicateOptionName opt0.name)
              else OptionsBase.initLoop tl (opt0.name :: seen) self1) = false
            by_cases hmem : opt0.name ∈ seen
            · simp [hmem, succeeds]
            · rw [if_neg hmem]
              exact ih (opt0.name :: seen) self1 attr opt h1 hf hdv

/-- With benign filters and distinct keys, a read-only field with a
non-`None` default makes the loop raise exactly the read-only rejection. -/
theorem initLoop_ro_err (fields : List (String × OptionDesc)) :
    ∀ (seen : List String) (self : Inst),
      (∀ f ∈ fields, f.2.set_filter = SetFilter.none ∨
        f.2.set_filter = SetFilter.boolFalse) →
      (∃ f ∈ fields, f.2.set_filter = SetFilter.boolFalse ∧
        f.2.default_value ≠ Val.none) →
      (fields.map (fun f => f.2.name)).Nodup →
      (∀ k0 ∈ fields.map (fun f => f.2.name), k0 ∉ seen) →
      OptionsBase.initLoop fields seen self =
        Except.error (Err.valueError "Read-only options.") := by
  induction fields with
  | nil => intro seen self _ hex _ _; simp at hex
  | cons hd tl ih =>
      intro seen self hben hex hnd hdisj
      obtain ⟨attr0, opt0⟩ := hd
      have hmem : opt0.name ∉ seen := hdisj opt0.name (by simp)
      simp only [List.map_cons, List.nodup_cons] at hnd
      have htl_ben : ∀ f ∈ tl, f.2.set_filter = SetFilter.none ∨
          f.2.set_filter = SetFilter.boolFalse :=
        fun f hfm => hben f (List.mem_cons_of_mem _ hfm)
      have htl_disj : ∀ k0 ∈ tl.map (fun f => f.2.name),
          k0 ∉ opt0.name :: seen := by
        intro k0 hk0 hk0s
        rcases List.mem_cons.1 hk0s with h1 | h1
        · subst h1; exact hnd.1 hk0
        · exact (hdisj k0 (by simp [hk0])) h1
      by_cases hro : opt0.set_filter = SetFilter.boolFalse ∧
          opt0.default_value ≠ Val.none
      · exact initLoop_cons_ro_default attr0 opt0 tl seen self hro.1 hro.2
      · have hex_tl : ∃ f ∈ tl, f.2.set_filter = SetFilter.boolFalse ∧
            f.2.default_value ≠ Val.none := by
          rcases hex with ⟨f, hfm, hfp⟩
          rcases List.mem_cons.1 hfm with h1 | h1
          · exact absurd (by rw [h1] at hfp; exact hfp) hro
          · exact ⟨f, h1, hfp⟩
        rcases hben (attr0, opt0) (List.mem_cons_self _ _) with hf | hf
        · by_cases hdv : opt0.default_value = Val.none
          · rw [initLoop_cons_no_default attr0 opt0 tl seen self hdv,
              if_neg hmem]
            exact ih (opt0.name :: seen) self htl_ben hex_tl hnd.2 htl_disj
          · rw [initLoop_cons_pass_default attr0 opt0 tl seen self hf hdv,
              if_neg hmem]
            exact ih (opt0.name :: seen) _ htl_ben hex_tl hnd.2 htl_disj
        · have hdv : opt0.default_value = Val.none := by
            by_contra hdv
            exact hro ⟨hf, hdv⟩
          rw [initLoop_cons_no_default attr0 opt0 tl seen self hdv,
            if_neg hmem]
          exact ih (opt0.name :: seen) self htl_ben hex_tl hnd.2 htl_disj

theorem init_none (ty : ContainerType) :
    OptionsBase.init ty Option.none =
      OptionsBase.initLoop ty.fields [] { cls := ty.cls, opts := [] } := rfl

theorem init_some (ty : ContainerType) (s : Inst) :
    OptionsBase.init ty (Option.some s) =
      match OptionsBase.from_options { cls := ty.cls, opts := [] } s with
      | Except.error e => Except.error e
      | Except.ok self1 => OptionsBase.initLoop ty.fields [] self1 := rfl

/-- Fixture: a concrete container class, as `class Config(Options)` of the
test script. -/
def clsConfig : PyClass :=
  { name := "Config", ancestors := ["Options", "OptionsBase", "object"] }

/-- Fixture: a proper subclass of `clsConfig`, as `class ConfigDefault(Config)`
of the test script. -/
def clsSub : PyClass :=
  { name := "ConfigDefault",
    ancestors := ["Config", "Options", "OptionsBase", "object"] }

/-- Fixture: a container type with a storage-key clash where the second
clashing field is read-only with a default, so its default materialization
raises before the duplicate check is reached. -/
def tyClash : ContainerType :=
  { cls := clsConfig,
    fields := [("a", option "k" SetFilter.none Val.none ""),
               ("b", readonly_option "k" (Val.int 1) "")] }

/-- Fixture: a container type with a plain storage-key clash (pass-through
filters, no defaults). -/
def tyDup : ContainerType :=
  { cls := clsConfig,
    fields := [("a", option "k" SetFilter.none Val.none ""),
               ("b", option "k" SetFilter.none (Val.int 1) "")] }

/-- Fixture: a container type with distinct storage keys and benign fields. -/
def tyDistinct : ContainerType :=
  { cls := clsConfig,
    fields := [("a", option "k" SetFilter.none Val.none ""),
               ("b", option "m" SetFilter.none (Val.int 1) "")] }

/-- Fixture: a container type whose storage-key clash is detected before its
read-only defaulted field is reached. -/
def tyDupRo : ContainerType :=
  { cls := clsConfig,
    fields := [("a", option "k" SetFilter.none Val.none ""),
               ("b", option "k" SetFilter.none Val.none ""),
               ("c", readonly_option "m" (Val.int 1) "")] }

/-- Fixture: a container type with a single read-only field carrying a
default. -/
def tyRo : ContainerType :=
  { cls := clsConfig,
    fields := [("x", readonly_option "k" (Val.int 1) "")] }

/-- C1: the claim says that when `get` finds the storage key absent and a
default is present, the deep-copied default is materialized bypassing the
validator, so the stored value is the default itself and a rejecting
validator cannot make the get fail.  The code disagrees with the claim and
with its own docstring (line 392: the default "isn't filtered by filter"):
`_wrap_getter` materializes the default through `_wrap_setter`, which runs
the filter.  At a field with default `1`: a transforming filter stores the
transformed value `2`, and a rejecting filter makes the get raise the
rejection. -/
theorem c1_default_materialization_runs_filter :
    wrapGetter
        (option "x"
          (SetFilter.func1 (fun _ => FilterOut.raiseErr (Err.valueError "bad")))
          (Val.int 1) "")
        { cls := clsConfig, opts := [] } =
      (Except.error (Err.valueError "bad"), { cls := clsConfig, opts := [] }) ∧
    wrapGetter
        (option "x" (SetFilter.func1 (fun _ => FilterOut.ret (Val.int 2)))
          (Val.int 1) "")
        { cls := clsConfig, opts := [] } =
      (Except.ok (Val.int 2),
       { cls := clsConfig, opts := [("x", Val.int 2)] }) :=
  ⟨rfl, rfl⟩

/-- C2 counterexample: on a pass-through field with default `1` whose key is
currently set, `delete` succeeds but leaves the storage key absent, so
`is_set` afterwards is `false` - the claim asserts it would be `true`. -/
theorem c2_counterexample_delete_leaves_unset :
    wrapDeleter (option "k" SetFilter.none (Val.int 1) "")
        { cls := clsConfig, opts := [("k", Val.int 5)] } =
      (Except.ok (), { cls := clsConfig, opts := [] }) ∧
    OptionsBase.is_set
        (wrapDeleter (option "k" SetFilter.none (Val.int 1) "")
          { cls := clsConfig, opts := [("k", Val.int 5)] }).2 "k" = false :=
  ⟨rfl, rfl⟩

/-- C2 (amended): on a field with a present default and a pass-through
filter, `delete` never raises, but it removes the storage key: afterwards
`is_set` is `false`, and `get` returns the default again only through lazy
re-materialization. -/
theorem c2_amended_delete_unsets_then_lazy_default (opt : OptionDesc)
    (self : Inst) (hf : opt.set_filter = SetFilter.none)
    (hd : opt.default_value ≠ Val.none) (hnd : Dict.NodupKeys self.opts) :
    (wrapDeleter opt self).1 = Except.ok () ∧
    OptionsBase.is_set (wrapDeleter opt self).2 opt.name = false ∧
    (wrapGetter opt (wrapDeleter opt self).2).1 =
      Except.ok opt.default_value := by
  have hstep := wrapSetter_none opt self opt.default_value hf
  have hkey : Dict.hasKey (Dict.set self.opts opt.name opt.default_value)
      opt.name = true := by
    unfold Dict.hasKey
    rw [Dict.lookup_set_self]
    rfl
  have hdel : wrapDeleter opt self =
      (Except.ok (), { self with
        opts := Dict.del (Dict.set self.opts opt.name opt.default_value)
          opt.name }) := by
    unfold wrapDeleter
    rw [if_pos hd, deepcopy_eq, hstep]
    unfold OptionsBase.fdelete OptionsBase.fset
    simp [hkey]
  have hnone : Dict.lookup
      (Dict.del (Dict.set self.opts opt.name opt.default_value) opt.name)
      opt.name = Option.none :=
    Dict.lookup_del_self _ _
      (Dict.nodupKeys_set self.opts opt.name opt.default_value hnd)
  rw [hdel]
  refine ⟨rfl, ?_, ?_⟩
  · simp [OptionsBase.is_set, Dict.hasKey, hnone]
  · have hset2 := wrapSetter_none opt
      { self with opts :=
          Dict.del (Dict.set self.opts opt.name opt.default_value) opt.name }
      opt.default_value hf
    simp [wrapGetter, OptionsBase.fget, hnone, hd, hset2, OptionsBase.fset,
      Dict.lookup_set_self, deepcopy_eq]

/-- Witness for C2 (amended) at a concrete pass-through field with default 1
and a store holding the key. -/
theorem c2_amended_witness :
    (wrapDeleter (option "k" SetFilter.none (Val.int 1) "")
      { cls := clsConfig, opts := [("k", Val.int 5)] }).1 = Except.ok () ∧
    OptionsBase.is_set
      (wrapDeleter (option "k" SetFilter.none (Val.int 1) "")
        { cls := clsConfig, opts := [("k", Val.int 5)] }).2 "k" = false ∧
    (wrapGetter (option "k" SetFilter.none (Val.int 1) "")
      (wrapDeleter (option "k" SetFilter.none (Val.int 1) "")
        { cls := clsConfig, opts := [("k", Val.int 5)] }).2).1 =
      Except.ok (Val.int 1) :=
  c2_amended_delete_unsets_then_lazy_default
    (option "k" SetFilter.none (Val.int 1) "")
    { cls := clsConfig, opts := [("k", Val.int 5)] }
    rfl (by decide) (by decide)

/-- C3: on a read-only field (set filter `False`), every set attempt raises
the read-only `ValueError` before anything is written, leaving the instance
- hence its exported store - unchanged. -/
theorem c3_readonly_set_rejected (opt : OptionDesc) (self : Inst) (v : Val)
    (h : opt.set_filter = SetFilter.boolFalse) :
    wrapSetter opt self v =
      (Except.error (Err.valueError "Read-only options."), self) ∧
    OptionsBase.build (wrapSetter opt self v).2 = OptionsBase.build self :=
  ⟨wrapSetter_boolFalse opt self v h, by
    rw [wrapSetter_boolFalse opt self v h]⟩

/-- Witness for C3 at a field declared through `readonly_option`. -/
theorem c3_witness :
    (readonly_option "url" (Val.str "127.0.0.1:9090") "").set_filter =
      SetFilter.boolFalse ∧
    wrapSetter (readonly_option "url" (Val.str "127.0.0.1:9090") "")
        { cls := clsConfig, opts := [] } (Val.int 1) =
      (Except.error (Err.valueError "Read-only options."),
       { cls := clsConfig, opts := [] }) :=
  ⟨rfl,
   (c3_readonly_set_rejected (readonly_option "url" (Val.str "127.0.0.1:9090") "")
     { cls := clsConfig, opts := [] } (Val.int 1) rfl).1⟩

/-- C4: when the wrapped set filter raises `InterruptedSetOption` on the
given value, the set call returns silently and the instance - hence its
store - is exactly unchanged. -/
theorem c4_interrupted_set_is_silent_noop (opt : OptionDesc) (self : Inst)
    (v : Val) (f : Inst → Val → FilterOut)
    (hf : mkWrapFilter opt.set_filter = WrapFilter.callable f)
    (hint : f self v = FilterOut.raiseInterrupted) :
    wrapSetter opt self v = (Except.ok (), self) := by
  simp [wrapSetter, hf, hint]

/-- Witness for C4 at an arity-1 filter that always interrupts. -/
theorem c4_witness :
    wrapSetter
        (option "x" (SetFilter.func1 (fun _ => FilterOut.raiseInterrupted))
          Val.none "")
        { cls := clsConfig, opts := [("y", Val.int 3)] } (Val.int 7) =
      (Except.ok (), { cls := clsConfig, opts := [("y", Val.int 3)] }) :=
  c4_interrupted_set_is_silent_noop
    (option "x" (SetFilter.func1 (fun _ => FilterOut.raiseInterrupted))
      Val.none "")
    { cls := clsConfig, opts := [("y", Val.int 3)] } (Val.int 7)
    (fun _ _ => FilterOut.raiseInterrupted) rfl rfl

/-- C5: between instances of the same concrete class, `diff` succeeds and
returns the symmetric difference of the two stores - a key is present
exactly when it lies in exactly one store, with the value from that side -
so `diff(a,b)` and `diff(b,a)` are equal as Python dicts and `diff(a,a)` is
empty. -/
theorem c5_diff_is_symmetric_difference (a b : Inst) (k : String)
    (hcls : a.cls = b.cls) :
    OptionsBase.diff a b = Except.ok (Dict.symmDiff a.opts b.opts) ∧
    Dict.lookup (Dict.symmDiff a.opts b.opts) k =
      (if Dict.hasKey a.opts k ∧ ¬ Dict.hasKey b.opts k then
         Dict.lookup a.opts k
       else if Dict.hasKey b.opts k ∧ ¬ Dict.hasKey a.opts k then
         Dict.lookup b.opts k
       else Option.none) ∧
    Dict.eqv (Dict.symmDiff a.opts b.opts) (Dict.symmDiff b.opts a.opts) =
      true ∧
    OptionsBase.diff a a = Except.ok [] := by
  have hiso : isinstance b a.cls := Or.inl (by rw [hcls])
  have hisoa : isinstance a a.cls := Or.inl rfl
  refine ⟨by simp [OptionsBase.diff, hiso], Dict.lookup_symmDiff a.opts b.opts k,
    ?_, ?_⟩
  · refine Dict.eqv_of_lookup_eq _ _ (fun k0 => ?_)
    rw [Dict.lookup_symmDiff, Dict.lookup_symmDiff]
    by_cases h1 : Dict.hasKey a.opts k0 <;>
      by_cases h2 : Dict.hasKey b.opts k0 <;> simp [h1, h2]
  · simp [OptionsBase.diff, hisoa, Dict.symmDiff_self]

/-- Witness for C5 at two concrete same-class instances with overlapping
stores. -/
theorem c5_witness :
    OptionsBase.diff
        { cls := clsConfig, opts := [("x", Val.int 1), ("y", Val.int 2)] }
        { cls := clsConfig, opts := [("y", Val.int 3), ("z", Val.int 4)] } =
      Except.ok [("x", Val.int 1), ("z", Val.int 4)] ∧
    Dict.eqv
      (Dict.symmDiff [("x", Val.int 1), ("y", Val.int 2)]
        [("y", Val.int 3), ("z", Val.int 4)])
      (Dict.symmDiff [("y", Val.int 3), ("z", Val.int 4)]
        [("x", Val.int 1), ("y", Val.int 2)]) = true ∧
    OptionsBase.diff
        { cls := clsConfig, opts := [("x", Val.int 1), ("y", Val.int 2)] }
        { cls := clsConfig, opts := [("x", Val.int 1), ("y", Val.int 2)] } =
      Except.ok [] :=
  have h := c5_diff_is_symmetric_difference
    { cls := clsConfig, opts := [("x", Val.int 1), ("y", Val.int 2)] }
    { cls := clsConfig, opts := [("y", Val.int 3), ("z", Val.int 4)] }
    "y" rfl
  ⟨h.1.trans rfl, h.2.2.1, h.2.2.2⟩

/-- C6 counterexample: `diff` does not raise when the argument is an
instance of a proper subclass: the two concrete classes differ, yet the call
succeeds, against the claim that any concrete-type difference raises. -/
theorem c6_counterexample_subtype_accepted :
    clsSub ≠ clsConfig ∧
    OptionsBase.diff { cls := clsConfig, opts := [] }
        { cls := clsSub, opts := [("x", Val.int 1)] } =
      Except.ok [("x", Val.int 1)] :=
  ⟨by decide, rfl⟩

/-- C6 (amended): `diff` raises the type error exactly when `other` fails
the `isinstance` check against the concrete class of `self` - an instance
of the same class or of any proper subclass is accepted. -/
theorem c6_amended_diff_typecheck (a other : Inst) :
    OptionsBase.diff a other =
      if isinstance other a.cls then
        Except.ok (Dict.symmDiff a.opts other.opts)
      else Except.error (Err.typeError "cannot compare") := by
  by_cases h : isinstance other a.cls <;> simp [OptionsBase.diff, h]

/-- C7 counterexample: a container type whose two declared fields share the
storage key `k`, but whose construction raises the read-only `ValueError`
rather than the duplicate-name error, because the clashing field carries a
default that is materialized (through its rejecting setter) before the
duplicate check runs. -/
theorem c7_counterexample_duplicate_masked :
    tyClash.optNames = ["k", "k"] ∧
    OptionsBase.init tyClash Option.none =
      Except.error (Err.valueError "Read-only options.") :=
  ⟨rfl, rfl⟩

/-- C7 (amended): a storage-key clash always makes construction fail (so
every successfully constructed instance has pairwise-distinct declared
storage keys); the raised error is the duplicate-name error at the first
repeated key provided the preceding default materializations do not raise
(for instance with pass-through filters); and with distinct keys and benign
filters the duplicate-name error is never raised. -/
theorem c7_amended_duplicate_detection (ty : ContainerType)
    (src : Option Inst) (k : String) :
    (¬ ty.optNames.Nodup → succeeds (OptionsBase.init ty src) = false) ∧
    ((∀ f ∈ ty.fields, f.2.set_filter = SetFilter.none) →
      firstDup [] ty.optNames = Option.some k →
      OptionsBase.init ty Option.none =
        Except.error (Err.duplicateOptionName k)) ∧
    ((∀ f ∈ ty.fields, f.2.set_filter = SetFilter.none ∨
        f.2.set_filter = SetFilter.boolFalse) →
      ty.optNames.Nodup →
      OptionsBase.init ty src ≠ Except.error (Err.duplicateOptionName k)) := by
  refine ⟨?_, ?_, ?_⟩
  · intro hnotnd
    cases src with
    | none =>
        rw [init_none]
        cases hres : OptionsBase.initLoop ty.fields []
            { cls := ty.cls, opts := [] } with
        | error e => rfl
        | ok inst =>
            exact absurd (initLoop_ok_nodup ty.fields [] _ inst hres).1 hnotnd
    | some s =>
        rw [init_some]
        cases hfo : OptionsBase.from_options { cls := ty.cls, opts := [] } s with
        | error e => rfl
        | ok self1 =>
            show succeeds (OptionsBase.initLoop ty.fields [] self1) = false
            cases hres : OptionsBase.initLoop ty.fields [] self1 with
            | error e => rfl
            | ok inst =>
                exact absurd (initLoop_ok_nodup ty.fields [] _ inst hres).1
                  hnotnd
  · intro hben hfd
    rw [init_none]
    exact initLoop_firstDup ty.fields [] _ k hben hfd
  · intro hben hnd
    cases src with
    | none =>
        rw [init_none]
        exact initLoop_no_dup_err ty.fields [] _ k hben hnd
          (fun k0 _ => List.not_mem_nil k0)
    | some s =>
        rw [init_some]
        cases hfo : OptionsBase.from_options { cls := ty.cls, opts := [] } s with
        | error e =>
            unfold OptionsBase.from_options at hfo
            by_cases hin : isinstance { cls := ty.cls, opts := ([] : Dict) } s.cls
            · simp [hin] at hfo
            · simp [hin] at hfo
              rw [← hfo]
              simp
        | ok self1 =>
            exact initLoop_no_dup_err ty.fields [] _ k hben hnd
              (fun k0 _ => List.not_mem_nil k0)

/-- Witness for C7 (amended): a plain duplicate type fails with exactly the
duplicate-name error, and a distinct-keys type never raises it. -/
theorem c7_amended_witness :
    succeeds (OptionsBase.init tyDup Option.none) = false ∧
    OptionsBase.init tyDup Option.none =
      Except.error (Err.duplicateOptionName "k") ∧
    OptionsBase.init tyDistinct Option.none ≠
      Except.error (Err.duplicateOptionName "k") :=
  have h1 := c7_amended_duplicate_detection tyDup Option.none "k"
  have h2 := c7_amended_duplicate_detection tyDistinct Option.none "k"
  ⟨h1.1 (by decide),
   h1.2.1
     (by
       intro f hf
       rcases List.mem_cons.1 hf with h | h
       · rw [h]; rfl
       · rcases List.mem_cons.1 h with h0 | h0
         · rw [h0]; rfl
         · simp at h0)
     rfl,
   h2.2.2
     (by
       intro f hf
       rcases List.mem_cons.1 hf with h | h
       · rw [h]; exact Or.inl rfl
       · rcases List.mem_cons.1 h with h0 | h0
         · rw [h0]; exact Or.inl rfl
         · simp at h0)
     (by decide)⟩

/-- C8: on the sealed variant `Options`, the overridden raw accessors raise
`AttributeError` unconditionally; the descriptor protocol still works on any
instance because `_wrap_setter`, `_wrap_getter` and `_wrap_deleter` call the
`OptionsBase` accessors explicitly; and the bulk operations (`is_set`,
`build`, `clear`, `diff`, `from_options`) behave exactly as on the base
container. -/
theorem c8_sealed_container (self other : Inst) (name0 : String) (v : Val)
    (opt : OptionDesc) (hpass : opt.set_filter = SetFilter.none)
    (hcls : self.cls = other.cls) :
    Options.fget self name0 = Except.error Err.attributeError ∧
    Options.fset self name0 v = Except.error Err.attributeError ∧
    Options.fdelete self name0 = Except.error Err.attributeError ∧
    wrapSetter opt self v = (Except.ok (), OptionsBase.fset self opt.name v) ∧
    wrapGetter opt (OptionsBase.fset self opt.name v) =
      (Except.ok v, OptionsBase.fset self opt.name v) ∧
    OptionsBase.is_set self name0 = Dict.hasKey self.opts name0 ∧
    OptionsBase.build self = self.opts ∧
    OptionsBase.clear self = { self with opts := [] } ∧
    OptionsBase.diff self other =
      Except.ok (Dict.symmDiff self.opts other.opts) ∧
    OptionsBase.from_options self other =
      Except.ok { self with opts := Dict.update self.opts other.opts } := by
  have hiso : isinstance other self.cls := Or.inl (by rw [hcls])
  have hiso2 : isinstance self other.cls := Or.inl (by rw [hcls])
  refine ⟨rfl, rfl, rfl, wrapSetter_none opt self v hpass, ?_, rfl, rfl, rfl,
    by simp [OptionsBase.diff, hiso], by simp [OptionsBase.from_options, hiso2]⟩
  have hlk := Dict.lookup_set_self self.opts opt.name v
  simp [wrapGetter, OptionsBase.fget, OptionsBase.fset, hlk]

/-- Witness for C8 at a concrete instance of the sealed class `Config`. -/
theorem c8_witness :
    Options.fget { cls := clsConfig, opts := [("u", Val.int 9)] } "u" =
      Except.error Err.attributeError ∧
    wrapGetter (option "k" SetFilter.none Val.none "")
        (OptionsBase.fset { cls := clsConfig, opts := [("u", Val.int 9)] }
          "k" (Val.str "s")) =
      (Except.ok (Val.str "s"),
       OptionsBase.fset { cls := clsConfig, opts := [("u", Val.int 9)] }
         "k" (Val.str "s")) :=
  have h := c8_sealed_container
    { cls := clsConfig, opts := [("u", Val.int 9)] }
    { cls := clsConfig, opts := [] } "u" (Val.str "s")
    (option "k" SetFilter.none Val.none "") rfl rfl
  ⟨h.1, h.2.2.2.2.1⟩

/-- C9 counterexample: a container type declaring a read-only field with a
non-`None` default, whose construction nevertheless raises the
duplicate-name error (an earlier storage-key clash), not the write-rejection
error the claim promises for every construction attempt. -/
theorem c9_counterexample_ro_masked_by_duplicate :
    ("c", readonly_option "m" (Val.int 1) "") ∈ tyDupRo.fields ∧
    OptionsBase.init tyDupRo Option.none =
      Except.error (Err.duplicateOptionName "k") :=
  ⟨List.mem_cons_of_mem _ (List.mem_cons_of_mem _ (List.mem_cons_self _ _)),
   rfl⟩

/-- C9 (amended): a container type declaring a read-only field with a
non-`None` default can never be instantiated - construction always fails,
from any source - and the raised error is the write-rejection `ValueError`
provided the declared fields are otherwise benign (pass-through or read-only
filters) and the storage keys are distinct. -/
theorem c9_amended_never_instantiable (ty : ContainerType)
    (src : Option Inst) (attr : String) (opt : OptionDesc)
    (hmem : (attr, opt) ∈ ty.fields)
    (hro : opt.set_filter = SetFilter.boolFalse)
    (hdv : opt.default_value ≠ Val.none) :
    succeeds (OptionsBase.init ty src) = false ∧
    ((∀ f ∈ ty.fields, f.2.set_filter = SetFilter.none ∨
        f.2.set_filter = SetFilter.boolFalse) →
      ty.optNames.Nodup →
      OptionsBase.init ty Option.none =
        Except.error (Err.valueError "Read-only options.")) := by
  constructor
  · cases src with
    | none =>
        rw [init_none]
        exact initLoop_ro_fails ty.fields [] _ attr opt hmem hro hdv
    | some s =>
        rw [init_some]
        cases hfo : OptionsBase.from_options { cls := ty.cls, opts := [] } s with
        | error e => rfl
        | ok self1 =>
            exact initLoop_ro_fails ty.fields [] self1 attr opt hmem hro hdv
  · intro hben hnd
    rw [init_none]
    exact initLoop_ro_err ty.fields [] _ hben ⟨(attr, opt), hmem, hro, hdv⟩
      hnd (fun k0 _ => List.not_mem_nil k0)

/-- Witness for C9 (amended) at the single-field read-only-with-default
type. -/
theorem c9_amended_witness :
    succeeds (OptionsBase.init tyRo Option.none) = false ∧
    OptionsBase.init tyRo Option.none =
      Except.error (Err.valueError "Read-only options.") :=
  have h := c9_amended_never_instantiable tyRo Option.none "x"
    (readonly_option "k" (Val.int 1) "") (List.mem_cons_self _ _) rfl
    (by decide)
  ⟨h.1,
   h.2
     (by
       intro f hf
       rcases List.mem_cons.1 hf with h0 | h0
       · rw [h0]; exact Or.inr rfl
       · simp at h0)
     (by decide)⟩

/-- C10: a field declared with `default_value=None` behaves exactly like a
field with no default: construction skips it (only the duplicate check
runs), `get` on the unset field raises `UnsetOption`, `delete` is the plain
base delete with no reset - yet `None` itself is storable through `set`, and
a stored `None` is then returned by `get`. -/
theorem c10_none_default_behaves_unset (opt : OptionDesc) (self : Inst)
    (attr : String) (rest : List (String × OptionDesc)) (seen : List String)
    (hd : opt.default_value = Val.none) :
    (OptionsBase.initLoop ((attr, opt) :: rest) seen self =
      if opt.name ∈ seen then Except.error (Err.duplicateOptionName opt.name)
      else OptionsBase.initLoop rest (opt.name :: seen) self) ∧
    (Dict.hasKey self.opts opt.name = false →
      wrapGetter opt self = (Except.error (Err.unsetOption opt.name), self)) ∧
    wrapDeleter opt self = OptionsBase.fdelete self opt.name ∧
    (opt.set_filter = SetFilter.none →
      wrapSetter opt self Val.none =
        (Except.ok (), OptionsBase.fset self opt.name Val.none) ∧
      wrapGetter opt (OptionsBase.fset self opt.name Val.none) =
        (Except.ok Val.none, OptionsBase.fset self opt.name Val.none)) := by
  refine ⟨initLoop_cons_no_default attr opt rest seen self hd, ?_, ?_, ?_⟩
  · intro hnk
    have hlk := Dict.lookup_eq_none_of_hasKey_false self.opts opt.name hnk
    simp [wrapGetter, OptionsBase.fget, hlk, hd]
  · simp [wrapDeleter, hd]
  · intro hf
    refine ⟨wrapSetter_none opt self Val.none hf, ?_⟩
    have hlk := Dict.lookup_set_self self.opts opt.name Val.none
    simp [wrapGetter, OptionsBase.fget, OptionsBase.fset, hlk]

/-- Witness for C10 at a concrete pass-through field with `None` default on
an empty store. -/
theorem c10_witness :
    OptionsBase.initLoop [("x", option "k" SetFilter.none Val.none "")] []
        { cls := clsConfig, opts := [] } =
      Except.ok { cls := clsConfig, opts := [] } ∧
    wrapGetter (option "k" SetFilter.none Val.none "")
        { cls := clsConfig, opts := [] } =
      (Except.error (Err.unsetOption "k"), { cls := clsConfig, opts := [] }) ∧
    wrapDeleter (option "k" SetFilter.none Val.none "")
        { cls := clsConfig, opts := [] } =
      OptionsBase.fdelete { cls := clsConfig, opts := [] } "k" ∧
    wrapSetter (option "k" SetFilter.none Val.none "")
        { cls := clsConfig, opts := [] } Val.none =
      (Except.ok (),
       OptionsBase.fset { cls := clsConfig, opts := [] } "k" Val.none) :=
  have h := c10_none_default_behaves_unset
    (option "k" SetFilter.none Val.none "")
    { cls := clsConfig, opts := [] } "x" [] [] rfl
  ⟨h.1.trans rfl, h.2.1 rfl, h.2.2.1, (h.2.2.2 rfl).1⟩

end PyOpt
